import Mathlib

/-!
Shallow embedding of the customer-support evaluation pipeline
(`src/api.py` and `src/app.py`; the two files duplicate the core logic).

Embedded here, faithfully to the Python source:
  * `detect_sensitive_info` — case-insensitive red-flag substring scan;
  * `extract_info` — the line-oriented parser over the model's completion
    text, including the semantics of Python's `re.search` for the pattern
    `- <Label>:\s*(.*)\(Score:\s*(\d)/5\)` with `re.IGNORECASE`;
  * the `/evaluate` orchestrator of `api.py` (external model, tokenizer
    and clock passed as parameters);
  * the append-only log sink (row encoding from `log_to_csv`; the CSV
    byte-level serialization itself is done by the external pandas
    library and is modelled abstractly, per the spec's interface).

Strings are treated at the character-list level.  Python's `str.lower`,
`str.strip`, `\s` and `\d` are Unicode-aware; the model covers their
ASCII behaviour (`Char.toLower`, ASCII whitespace, ASCII digits), which
coincides with Python on all ASCII text.
-/

namespace SupportEval

/-- ASCII whitespace, as matched by Python's `str.strip` and `\s`
(space, tab, newline, carriage return, vertical tab, form feed). -/
def isPySpace (c : Char) : Bool :=
  c = ' ' || c = '\t' || c = '\n' || c = '\r' || c = '\x0b' || c = '\x0c'

/-- Python `str.strip()`: drop leading and trailing whitespace. -/
def pyStrip (s : String) : String :=
  ⟨((s.data.dropWhile isPySpace).reverse.dropWhile isPySpace).reverse⟩

/-- Python `str.lower()` (ASCII range). -/
def pyLower (s : String) : String :=
  ⟨s.data.map Char.toLower⟩

/-- Helper for `splitlines`: accumulates the current line (reversed). -/
def splitlinesAux : List Char → List Char → List (List Char)
  | [], acc => if acc.isEmpty then [] else [acc.reverse]
  | '\r' :: '\n' :: rest, acc => acc.reverse :: splitlinesAux rest []
  | '\r' :: rest, acc => acc.reverse :: splitlinesAux rest []
  | '\n' :: rest, acc => acc.reverse :: splitlinesAux rest []
  | c :: rest, acc => splitlinesAux rest (c :: acc)

/-- Python `str.splitlines()` restricted to the separators `\n`, `\r`,
`\r\n`: no trailing empty line, `"".splitlines() == []`. -/
def splitlines (s : String) : List String :=
  (splitlinesAux s.data []).map fun l => ⟨l⟩

/-- Boolean list-prefix test (used to embed substring search). -/
def isPrefixL : List Char → List Char → Bool
  | [], _ => true
  | _ :: _, [] => false
  | a :: as, b :: bs => a == b && isPrefixL as bs

/-- Boolean list-infix test: `p` occurs contiguously in the argument. -/
def isInfixL (p : List Char) : List Char → Bool
  | [] => isPrefixL p []
  | c :: rest => isPrefixL p (c :: rest) || isInfixL p rest

/-- Python `pat in s` (substring containment). -/
def containsSubstr (pat s : String) : Bool :=
  isInfixL pat.data s.data

/-- Python `s.startswith(pat)`. -/
def strStartsWith (pat s : String) : Bool :=
  isPrefixL pat.data s.data

/-- Case-insensitive literal match: if (lowering both sides) `pat` is a
prefix of `s`, return the remainder of `s` after it. -/
def dropLitCI : List Char → List Char → Option (List Char)
  | [], s => some s
  | _ :: _, [] => none
  | p :: ps, c :: cs => if p.toLower = c.toLower then dropLitCI ps cs else none

/-- Suffix of `s` after the leftmost case-insensitive occurrence of
`pat`, if any (the regex engine's leftmost-start rule for a pattern that
begins with this literal). -/
def findAfterCI (pat : List Char) : List Char → Option (List Char)
  | [] => dropLitCI pat []
  | c :: rest =>
    match dropLitCI pat (c :: rest) with
    | some suffix => some suffix
    | none => findAfterCI pat rest

/-- Does `s` begin with `(Score:` (case-insensitive) then whitespace,
then a single digit, then `/5)`?  If so return the digit's value.  This
is the deterministic residue of `\(Score:\s*(\d)/5\)`: `\s*` must take
the whole whitespace run because a whitespace character can never match
`\d`. -/
def scoreAt (s : List Char) : Option Nat :=
  match dropLitCI "(score:".data s with
  | none => none
  | some rest =>
    match rest.dropWhile isPySpace with
    | [] => none
    | d :: tail =>
      if d.isDigit && isPrefixL "/5)".data tail then some (d.toNat - 48) else none

/-- Split `s` before the LAST position where `scoreAt` succeeds,
returning the characters before that position and the captured digit.
The greedy `(.*)` of the bullet regex selects exactly this occurrence. -/
def lastScoreSplit : List Char → Option (List Char × Nat)
  | [] => none
  | c :: rest =>
    match lastScoreSplit rest with
    | some (pre, d) => some (c :: pre, d)
    | none =>
      match scoreAt (c :: rest) with
      | some d => some ([], d)
      | none => none

/-- Embedding of
`re.search(r"- <label>:\s*(.*)\(Score:\s*(\d)/5\)", line, re.IGNORECASE)`
followed by `(group(1).strip(), int(group(2)))`.  The label cannot
overlap itself, so the leftmost match starts at the first occurrence of
the label, and the greedy `(.*)` stretches to the last completable
`(Score: d/5)` occurrence in the remainder of the line. -/
def bulletCapture (label : String) (line : String) : Option (String × Nat) :=
  match findAfterCI label.data line.data with
  | none => none
  | some suffix =>
    match lastScoreSplit suffix with
    | none => none
    | some (pre, d) => some (pyStrip ⟨pre⟩, d)

/-- The three scored evaluation categories. -/
inductive Cat where
  | behavior
  | conv
  | know
deriving DecidableEq, Repr

/-- The parser's `current` section cursor. -/
inductive Cursor where
  | summary
  | cat (c : Cat)
deriving DecidableEq, Repr

/-- The mutable state of `extract_info`'s loop. -/
structure PState where
  summary : String
  behavior : String
  conv : String
  know : String
  sb : Nat
  sc : Nat
  sk : Nat
  current : Option Cursor
deriving DecidableEq, Repr

/-- Initial state of `extract_info`: empty texts, all scores 1, no
current section. -/
def initState : PState :=
  { summary := "", behavior := "", conv := "", know := ""
    sb := 1, sc := 1, sk := 1, current := none }

/-- How `extract_info` classifies one line: the `summary:` reset, a
category bullet (with the regex capture attempt), or a plain line. -/
inductive LineKind where
  | summaryMark
  | bullet (c : Cat) (capture : Option (String × Nat))
  | plain
deriving DecidableEq, Repr

/-- The guard chain of `extract_info`'s loop body, on the stripped and
lowercased copy of the line, in source order. -/
def classifyLine (line : String) : LineKind :=
  let ll := pyLower (pyStrip line)
  if strStartsWith "summary:" ll then .summaryMark
  else if containsSubstr "- behavior:" ll then
    .bullet .behavior (bulletCapture "- Behavior:" line)
  else if containsSubstr "- conversation quality:" ll then
    .bullet .conv (bulletCapture "- Conversation Quality:" line)
  else if containsSubstr "- know-how of the issue:" ll then
    .bullet .know (bulletCapture "- Know-How of the Issue:" line)
  else .plain

/-- Store a captured (text, score) pair into the state's field for
category `c`. -/
def setCat (st : PState) (c : Cat) (t : String) (d : Nat) : PState :=
  match c with
  | .behavior => { st with behavior := t, sb := d }
  | .conv => { st with conv := t, sc := d }
  | .know => { st with know := t, sk := d }

/-- A bullet line: `current` moves to the category; the fields update
only when the regex matched. -/
def applyBullet (st : PState) (c : Cat) : Option (String × Nat) → PState
  | some (t, d) => { setCat st c t d with current := some (.cat c) }
  | none => { st with current := some (.cat c) }

/-- One iteration of `extract_info`'s `for line in lines` loop. -/
def stepLine (st : PState) (line : String) : PState :=
  match classifyLine line with
  | .summaryMark => { st with current := some .summary, summary := "" }
  | .bullet c cap => applyBullet st c cap
  | .plain =>
    if st.current = some Cursor.summary then
      { st with summary := st.summary ++ line ++ " " }
    else st

/-- Run the parser loop over a list of lines. -/
def runLines (lines : List String) : PState :=
  lines.foldl stepLine initState

/-- The tuple returned by `extract_info`. -/
structure ParseResult where
  summary : String
  behavior : String
  conv : String
  know : String
  sb : Nat
  sc : Nat
  sk : Nat
deriving DecidableEq, Repr

/-- The `return` of `extract_info`: final state, summary stripped. -/
def finalize (st : PState) : ParseResult :=
  { summary := pyStrip st.summary, behavior := st.behavior, conv := st.conv
    know := st.know, sb := st.sb, sc := st.sc, sk := st.sk }

/-- `extract_info` of `src/api.py` / `src/app.py`: split the completion
into lines, run the section-cursor loop, strip the summary. -/
def extract_info (groq_output : String) : ParseResult :=
  finalize (runLines (splitlines groq_output))

/-- Text field of a result, by category. -/
def rText (r : ParseResult) : Cat → String
  | .behavior => r.behavior
  | .conv => r.conv
  | .know => r.know

/-- Score field of a result, by category. -/
def rScore (r : ParseResult) : Cat → Nat
  | .behavior => r.sb
  | .conv => r.sc
  | .know => r.sk

/-- Text field of a parser state, by category. -/
def stText (st : PState) : Cat → String
  | .behavior => st.behavior
  | .conv => st.conv
  | .know => st.know

/-- Score field of a parser state, by category. -/
def stScore (st : PState) : Cat → Nat
  | .behavior => st.sb
  | .conv => st.sc
  | .know => st.sk

/-- The capture a line contributes to category `c`: `some (t, d)` iff
the loop body overwrites `c`'s text and score with `(t, d)` on this
line, `none` iff it leaves them unchanged. -/
def captureFor (c : Cat) (line : String) : Option (String × Nat) :=
  match classifyLine line with
  | .bullet c' cap => if c' = c then cap else none
  | _ => none

/-- `detect_sensitive_info`'s fixed red-flag list, in source order. -/
def red_flags : List String :=
  ["credit card", "password", "cvv", "otp", "pin", "ssn", "account number"]

/-- `detect_sensitive_info` of `src/api.py` / `src/app.py`. -/
def detect_sensitive_info (convo : String) : Bool :=
  red_flags.any fun flag => containsSubstr flag (pyLower convo)

/-- One persisted evaluation record: the value set assembled in
`log_to_csv` (`api.py`) / `cache_result` (`app.py`).  Timestamps are
kept as the strings produced by the (external) clock conversion. -/
structure EvalRecord where
  convo : String
  summary : String
  behavior : String
  conv : String
  know : String
  sb : Nat
  sc : Nat
  sk : Nat
  reported : Bool
  tsUtc : String
  dateIst : String
  timeIst : String
deriving DecidableEq, Repr

/-- One row of the store: a list of cell strings. -/
abbrev Row : Type := List String

/-- The fixed 12-column header (`REQUIRED_COLUMNS` in `api.py`,
`required_columns` in `app.py`). -/
def headerRow : Row :=
  ["Conversation", "Summary", "Behavior Eval", "Behavior Score",
   "Conversation Eval", "Conversation Score", "Know-how Eval",
   "Know-how Score", "Agent Reported", "Timestamp UTC",
   "Date (IST)", "Time (IST)"]

/-- Modelled from the spec: the boolean cell encoding used by the
external CSV layer (pandas writes Python booleans as `True`/`False`);
the byte-level CSV mechanics are outside `src/`. -/
def boolCell (b : Bool) : String :=
  if b then "True" else "False"

/-- Row encoding of a record, in the header's column order, as built by
the dict in `log_to_csv` / `cache_result` (scores rendered in decimal
by the external CSV layer). -/
def encodeRecord (r : EvalRecord) : Row :=
  [r.convo, r.summary, r.behavior, Nat.repr r.sb,
   r.conv, Nat.repr r.sc, r.know, Nat.repr r.sk,
   boolCell r.reported, r.tsUtc, r.dateIst, r.timeIst]

/-- Decimal parse of a cell (ASCII digits), `none` on anything else. -/
def cellToNat (s : String) : Option Nat :=
  if s.data ≠ [] ∧ s.data.all Char.isDigit then
    some (s.data.foldl (fun a c => a * 10 + (c.toNat - 48)) 0)
  else none

/-- Modelled from the spec: `readAll`'s per-row decoding (the reverse of
the external CSV layer's encoding), with per-field defaults on cells
that fail to parse, mirroring the permissive parsing policy. -/
def decodeRow (row : Row) : EvalRecord :=
  let cell := fun i => (List.get? row i).getD ""
  { convo := cell 0, summary := cell 1, behavior := cell 2
    sb := (cellToNat (cell 3)).getD 1
    conv := cell 4, sc := (cellToNat (cell 5)).getD 1
    know := cell 6, sk := (cellToNat (cell 7)).getD 1
    reported := cell 8 = "True"
    tsUtc := cell 9, dateIst := cell 10, timeIst := cell 11 }

/-- The store initialized with the fixed header (the create-if-absent
step at the top of both source files). -/
def initStore : List Row := [headerRow]

/-- `append`: `df.to_csv(CSV_FILE, mode="a", header=False)` adds exactly
one encoded row after the existing contents. -/
def appendRecord (store : List Row) (r : EvalRecord) : List Row :=
  store ++ [encodeRecord r]

/-- Modelled from the spec: `readAll` (`pd.read_csv` in `app.py`) parses
every data row after the header back into a record. -/
def readAll (store : List Row) : List EvalRecord :=
  (store.drop 1).map decodeRow

/-- One `{text, score}` leaf of the HTTP response's `evaluation`
object. -/
structure ApiEvaluation where
  text : String
  score : Nat
deriving DecidableEq, Repr

/-- The success JSON body returned by `/evaluate` in `api.py`. -/
structure ApiResponse where
  tokens_estimated : Nat
  agent_reported : Bool
  timestamp_utc : String
  summary : String
  behavior : ApiEvaluation
  conversation_quality : ApiEvaluation
  know_how : ApiEvaluation
deriving DecidableEq, Repr

/-- Outcome of one `/evaluate` request: HTTP 400 with an error message,
or HTTP 200 with the response body. -/
inductive HttpResult where
  | badRequest (msg : String)
  | ok (resp : ApiResponse)
deriving DecidableEq, Repr

/-- Record assembly inside `evaluate` (the argument list passed to
`log_to_csv`). -/
def mkRecord (convo : String) (r : ParseResult) (flagged : Bool)
    (tsUtc dateIst timeIst : String) : EvalRecord :=
  { convo := convo, summary := r.summary, behavior := r.behavior
    conv := r.conv, know := r.know, sb := r.sb, sc := r.sc, sk := r.sk
    reported := flagged, tsUtc := tsUtc, dateIst := dateIst
    timeIst := timeIst }

/-- The `/evaluate` orchestrator of `api.py`.  External collaborators
are parameters: `model` (the Groq completion call), `tok` (the tiktoken
estimate), and the clock values.  Returns the HTTP outcome and the
store after the request. -/
def evaluate (model : String → String) (tok : String → Nat)
    (tsUtc dateIst timeIst : String) (store : List Row)
    (convo : String) : HttpResult × List Row :=
  if pyStrip convo = "" then
    (.badRequest "Conversation is required", store)
  else
    let tokens := tok convo
    let flagged := detect_sensitive_info convo
    let output := model convo
    let r := extract_info output
    let record := mkRecord convo r flagged tsUtc dateIst timeIst
    (.ok { tokens_estimated := tokens, agent_reported := flagged
           timestamp_utc := tsUtc, summary := r.summary
           behavior := ⟨r.behavior, r.sb⟩
           conversation_quality := ⟨r.conv, r.sc⟩
           know_how := ⟨r.know, r.sk⟩ },
     appendRecord store record)

/-- The `agent_reported` field of a result, when the request
succeeded. -/
def responseReported : HttpResult → Option Bool
  | .ok resp => some resp.agent_reported
  | .badRequest _ => none

/-- The `Agent Reported` cell of the last row of a store. -/
def storedFlagCell (store : List Row) : Option String :=
  store.getLast?.bind fun row => List.get? row 8

/-! ### Shared helper lemmas -/

theorem isPrefixL_iff (p l : List Char) : isPrefixL p l = true ↔ p <+: l := by
  induction p generalizing l with
  | nil => simp [isPrefixL, List.nil_prefix]
  | cons a as ih =>
    cases l with
    | nil => simp [isPrefixL, List.prefix_nil]
    | cons b bs => simp [isPrefixL, List.cons_prefix_cons, ih]

theorem isInfixL_iff (p l : List Char) : isInfixL p l = true ↔ p <:+: l := by
  induction l with
  | nil => cases p <;> simp [isInfixL, isPrefixL, List.infix_nil]
  | cons c rest ih => simp [isInfixL, List.infix_cons_iff, isPrefixL_iff, ih]

theorem containsSubstr_iff (pat s : String) :
    containsSubstr pat s = true ↔ pat.data <:+: s.data :=
  isInfixL_iff pat.data s.data

theorem rText_finalize (st : PState) (c : Cat) : rText (finalize st) c = stText st c := by
  cases c <;> rfl

theorem rScore_finalize (st : PState) (c : Cat) : rScore (finalize st) c = stScore st c := by
  cases c <;> rfl

/-- A line whose capture for `c` is `none` leaves `c`'s text and score
untouched. -/
theorem stepLine_preserve (st : PState) (line : String) (c : Cat)
    (h : captureFor c line = none) :
    stText (stepLine st line) c = stText st c ∧
      stScore (stepLine st line) c = stScore st c := by
  cases hcl : classifyLine line with
  | summaryMark => cases c <;> simp [stepLine, hcl, stText, stScore]
  | plain =>
    by_cases hc : st.current = some Cursor.summary <;>
      cases c <;> simp [stepLine, hcl, hc, stText, stScore]
  | bullet c' cap =>
    rw [captureFor, hcl] at h
    cases cap with
    | none => cases c <;> cases c' <;> simp [stepLine, hcl, applyBullet, stText, stScore]
    | some td =>
      obtain ⟨t, d⟩ := td
      by_cases hcc : c' = c
      · simp [hcc] at h
      · cases c <;> cases c' <;>
          simp_all [stepLine, hcl, applyBullet, setCat, stText, stScore]

/-- A line whose capture for `c` is `some (t, d)` overwrites `c`'s text
and score with `t` and `d`, whatever they were. -/
theorem stepLine_capture (st : PState) (line : String) (c : Cat) (t : String) (d : Nat)
    (h : captureFor c line = some (t, d)) :
    stText (stepLine st line) c = t ∧ stScore (stepLine st line) c = d := by
  cases hcl : classifyLine line with
  | summaryMark => rw [captureFor, hcl] at h; exact absurd h (by simp)
  | plain => rw [captureFor, hcl] at h; exact absurd h (by simp)
  | bullet c' cap =>
    rw [captureFor, hcl] at h
    by_cases hcc : c' = c
    · subst hcc
      simp only [if_pos rfl] at h
      subst h
      cases c' <;> simp [stepLine, hcl, applyBullet, setCat, stText, stScore]
    · simp [hcc] at h

/-- Folding over lines that all have capture `none` for `c` preserves
`c`'s text and score. -/
theorem foldl_preserve (lines : List String) (st : PState) (c : Cat)
    (h : ∀ l ∈ lines, captureFor c l = none) :
    stText (lines.foldl stepLine st) c = stText st c ∧
      stScore (lines.foldl stepLine st) c = stScore st c := by
  induction lines generalizing st with
  | nil => exact ⟨rfl, rfl⟩
  | cons l ls ih =>
    have h1 := stepLine_preserve st l c (h l (by simp))
    have h2 := ih (stepLine st l) (fun l' hl' => h l' (by simp [hl']))
    exact ⟨h2.1.trans h1.1, h2.2.trans h1.2⟩

theorem scoreAt_le_nine (s : List Char) (d : Nat) (h : scoreAt s = some d) : d ≤ 9 := by
  unfold scoreAt at h
  split at h
  · exact absurd h (by simp)
  · split at h
    · exact absurd h (by simp)
    · split at h
      · rename_i ch tail heq hd
        obtain ⟨h1, _⟩ := Bool.and_eq_true_iff.mp hd
        simp [Char.isDigit, Char.le_def] at h1
        have h9 : ch.toNat ≤ 57 := h1.2
        injection h with h2
        omega
      · exact absurd h (by simp)

theorem lastScoreSplit_le_nine (s : List Char) (pre : List Char) (d : Nat)
    (h : lastScoreSplit s = some (pre, d)) : d ≤ 9 := by
  induction s generalizing pre d with
  | nil => exact absurd h (by simp [lastScoreSplit])
  | cons c rest ih =>
    rw [lastScoreSplit] at h
    cases hls : lastScoreSplit rest with
    | some pd =>
      obtain ⟨p, d'⟩ := pd
      rw [hls] at h
      simp only [Option.some.injEq, Prod.mk.injEq] at h
      obtain ⟨_, hd⟩ := h
      exact hd ▸ ih p d' hls
    | none =>
      rw [hls] at h
      cases hsc : scoreAt (c :: rest) with
      | none => simp [hsc] at h
      | some d' =>
        rw [hsc] at h
        simp only [Option.some.injEq, Prod.mk.injEq] at h
        exact h.2 ▸ scoreAt_le_nine _ _ hsc

theorem bulletCapture_le_nine (label line : String) (t : String) (d : Nat)
    (h : bulletCapture label line = some (t, d)) : d ≤ 9 := by
  unfold bulletCapture at h
  cases hfa : findAfterCI label.data line.data with
  | none => rw [hfa] at h; simp at h
  | some suffix =>
    rw [hfa] at h
    simp only at h
    cases hls : lastScoreSplit suffix with
    | none => rw [hls] at h; simp at h
    | some pd =>
      obtain ⟨pre, d'⟩ := pd
      rw [hls] at h
      simp only [Option.some.injEq, Prod.mk.injEq] at h
      exact h.2 ▸ lastScoreSplit_le_nine suffix pre d' hls

theorem captureFor_le_nine (c : Cat) (line : String) (t : String) (d : Nat)
    (h : captureFor c line = some (t, d)) : d ≤ 9 := by
  rw [captureFor] at h
  cases hcl : classifyLine line with
  | summaryMark => rw [hcl] at h; exact absurd h (by simp)
  | plain => rw [hcl] at h; exact absurd h (by simp)
  | bullet c' cap =>
    rw [hcl] at h
    by_cases hcc : c' = c
    · simp only [if_pos hcc] at h
      simp only [classifyLine] at hcl
      repeat' split at hcl
      all_goals first
        | (injection hcl with h1 h2; exact bulletCapture_le_nine _ _ _ _ (h2.trans h))
        | exact absurd hcl (by simp)
    · simp [hcc] at h

theorem stepLine_score_le_nine (st : PState) (line : String) (c : Cat)
    (h : stScore st c ≤ 9) : stScore (stepLine st line) c ≤ 9 := by
  cases hcap : captureFor c line with
  | none => rw [(stepLine_preserve st line c hcap).2]; exact h
  | some td =>
    obtain ⟨t, d⟩ := td
    rw [(stepLine_capture st line c t d hcap).2]
    exact captureFor_le_nine c line t d hcap

theorem foldl_score_le_nine (lines : List String) (st : PState) (c : Cat)
    (h : stScore st c ≤ 9) : stScore (lines.foldl stepLine st) c ≤ 9 := by
  induction lines generalizing st with
  | nil => exact h
  | cons l ls ih => exact ih (stepLine st l) (stepLine_score_le_nine st l c h)

/-- Lines that classify as plain, starting with no current section,
leave the state at its initial value. -/
theorem foldl_plain_init (lines : List String)
    (h : ∀ l ∈ lines, classifyLine l = LineKind.plain) :
    lines.foldl stepLine initState = initState := by
  induction lines with
  | nil => rfl
  | cons l ls ih =>
    have h1 : stepLine initState l = initState := by
      simp [stepLine, h l (by simp), initState]
    rw [List.foldl_cons, h1]
    exact ih (fun l' hl' => h l' (by simp [hl']))

theorem foldl_appendRecord (records : List EvalRecord) (store : List Row) :
    records.foldl appendRecord store = store ++ records.map encodeRecord := by
  induction records generalizing store with
  | nil => simp
  | cons r rs ih => simp [List.foldl_cons, appendRecord, ih]

theorem cellToNat_repr (n : Nat) (h : n ≤ 9) : cellToNat (Nat.repr n) = some n := by
  interval_cases n <;> rfl

theorem decodeRow_encodeRecord (r : EvalRecord) (h1 : r.sb ≤ 9) (h2 : r.sc ≤ 9)
    (h3 : r.sk ≤ 9) : decodeRow (encodeRecord r) = r := by
  obtain ⟨convo, summary, behavior, conv, know, sb, sc, sk, reported, tsUtc, dateIst, timeIst⟩ := r
  simp only at h1 h2 h3
  cases reported <;>
    simp [decodeRow, encodeRecord, List.get?, cellToNat_repr _ h1,
      cellToNat_repr _ h2, cellToNat_repr _ h3, boolCell]

/-! ### Concrete inputs and oracles used by the claim theorems -/

/-- The scenario-2 completion text of the spec, verbatim. -/
def scenario2Text : String :=
  "Summary:\nCustomer could not log in.\n\nAgent Evaluation:\n- Behavior: Polite and professional (Score: 4/5)\n- Conversation Quality: Clear and responsive (Score: 5/5)\n- Know-How of the Issue: Correct fix offered (Score: 5/5)"

/-- A completion whose only Behavior bullet carries the digit 0. -/
def zeroScoreText : String := "- Behavior: bad agent (Score: 0/5)"

/-- A completion with a well-formed Behavior bullet followed by a
Behavior bullet that lacks the score annotation. -/
def dupFailText : String := "- Behavior: good (Score: 4/5)\n- Behavior: bad"

/-- A completion with two well-formed Behavior bullets. -/
def dupText : String :=
  "- Behavior: first (Score: 2/5)\n- Behavior: second (Score: 3/5)"

/-- Every line of `s` leaves category `c` untouched (no successful
regex capture for `c` anywhere). -/
def noCaptureLines (c : Cat) (s : String) : Bool :=
  (splitlines s).all fun l => captureFor c l = none

/-- Every line of `ls` leaves category `c` untouched. -/
def noCaptureList (c : Cat) (ls : List String) : Bool :=
  ls.all fun l => captureFor c l = none

/-- Every line of `s` is plain: no `summary:` prefix, none of the three
category markers. -/
def unstructuredText (s : String) : Bool :=
  (splitlines s).all fun l => classifyLine l = LineKind.plain

/-- A fixed stand-in for the external model. -/
def constModel : String → String := fun _ => "model output"

/-- A second, different stand-in for the external model. -/
def constModelB : String → String := fun _ => "- Behavior: fine (Score: 5/5)"

/-- A fixed stand-in for the external tokenizer. -/
def constTok : String → Nat := fun _ => 7

/-- All scores of every record are single digits (the range the parser
can actually produce). -/
def scoresSmall (records : List EvalRecord) : Bool :=
  records.all fun r => decide (r.sb ≤ 9) && decide (r.sc ≤ 9) && decide (r.sk ≤ 9)

/-- A sample record for the round-trip witness. -/
def sampleRec1 : EvalRecord :=
  { convo := "hello agent", summary := "a chat", behavior := "kind"
    conv := "clear", know := "right", sb := 4, sc := 5, sk := 3
    reported := false, tsUtc := "2024-01-01T00:00:00+00:00"
    dateIst := "2024-01-01", timeIst := "05:30:00" }

/-- A second sample record for the round-trip witness. -/
def sampleRec2 : EvalRecord :=
  { convo := "give me your password", summary := "bad chat", behavior := "rude"
    conv := "muddled", know := "wrong", sb := 1, sc := 1, sk := 1
    reported := true, tsUtc := "2024-01-02T00:00:00+00:00"
    dateIst := "2024-01-02", timeIst := "06:30:00" }

/-! ### Claims -/

/-- C1, counterexample: on the exact scenario-2 completion text the
parser's summary also accumulates the `Agent Evaluation:` heading line
(and the blank line's extra space), so it is not the bare summary
paragraph the claim states. -/
theorem claim1_counterexample :
    (extract_info scenario2Text).summary = "Customer could not log in.  Agent Evaluation:" ∧
      (extract_info scenario2Text).summary ≠ "Customer could not log in." := by
  decide

/-- C1 (amended): for the exact scenario-2 completion text, `parse`
returns summary `"Customer could not log in.  Agent Evaluation:"` (the
heading line is appended to the summary accumulator), and the three
(text, score) pairs exactly as claimed: ("Polite and professional", 4),
("Clear and responsive", 5), ("Correct fix offered", 5). -/
theorem claim1_theorem :
    extract_info scenario2Text =
      { summary := "Customer could not log in.  Agent Evaluation:"
        behavior := "Polite and professional"
        conv := "Clear and responsive"
        know := "Correct fix offered"
        sb := 4, sc := 5, sk := 5 } := by
  decide

/-- C2, counterexample: the single-digit capture group accepts `0`, so
the completion `- Behavior: bad agent (Score: 0/5)` yields a behavior
score of 0, outside the claimed range [1,5]. -/
theorem claim2_counterexample :
    (extract_info zeroScoreText).sb = 0 ∧
      ¬(1 ≤ (extract_info zeroScoreText).sb ∧ (extract_info zeroScoreText).sb ≤ 5) := by
  decide

/-- C2 (amended): for every completion text, each of the three scores
returned by `parse` is a single digit, i.e. an integer in [0,9] (not
[1,5]); and when no parseable score annotation is present for a
category, that category's score is the default 1. -/
theorem claim2_theorem (s : String) (c : Cat) :
    rScore (extract_info s) c ≤ 9 ∧
      (noCaptureLines c s = true → rScore (extract_info s) c = 1) := by
  constructor
  · rw [extract_info, rScore_finalize, runLines]
    exact foldl_score_le_nine _ _ _ (by cases c <;> decide)
  · intro h
    rw [extract_info, rScore_finalize, runLines]
    have h' : ∀ l ∈ splitlines s, captureFor c l = none := fun l hl =>
      of_decide_eq_true (List.all_eq_true.mp h l hl)
    rw [(foldl_preserve (splitlines s) initState c h').2]
    cases c <;> rfl

/-- C2 witness: a markerless completion has behavior score 1 (which is
within the single-digit bound). -/
theorem claim2_witness :
    noCaptureLines Cat.behavior "no markers here" = true ∧
      rScore (extract_info "no markers here") Cat.behavior = 1 ∧
      rScore (extract_info "no markers here") Cat.behavior ≤ 9 := by
  have H := claim2_theorem "no markers here" Cat.behavior
  exact ⟨by decide, H.2 (by decide), H.1⟩

/-- C3: `detect` returns true iff the lowercased conversation contains
one of the seven fixed red-flag substrings, at any position, with no
word-boundary check. -/
theorem claim3_theorem (convo : String) :
    detect_sensitive_info convo = true ↔
      ∃ flag ∈ (["credit card", "password", "cvv", "otp", "pin", "ssn",
        "account number"] : List String), flag.data <:+: (pyLower convo).data := by
  simp only [detect_sensitive_info, red_flags, List.any_eq_true, containsSubstr_iff]

/-- C4: an empty or whitespace-only conversation is rejected with
HTTP 400 before any external call — the outcome does not depend on the
model or tokenizer oracles at all — and the store is unchanged, so no
record is appended. -/
theorem claim4_theorem (model : String → String) (tok : String → Nat)
    (tsUtc dateIst timeIst : String) (store : List Row) (convo : String)
    (h : pyStrip convo = "") :
    evaluate model tok tsUtc dateIst timeIst store convo =
      (HttpResult.badRequest "Conversation is required", store) := by
  simp [evaluate, h]

/-- C4 witness: a three-space conversation is whitespace-only and gets
the 400 outcome with the store unchanged. -/
theorem claim4_witness :
    pyStrip "   " = "" ∧
      evaluate constModel constTok "u" "d" "t" [] "   " =
        (HttpResult.badRequest "Conversation is required", []) :=
  ⟨by decide, claim4_theorem constModel constTok "u" "d" "t" [] "   " (by decide)⟩

/-- C5: the `agent_reported` flag in the response and in the persisted
row equals `detect` of the raw conversation, for any model oracle — so
two runs on the same conversation with arbitrary completions agree on
it — and any conversation containing the substring
`"Please share your OTP"` is reported, whatever the model returns. -/
theorem claim5_theorem (m₁ m₂ : String → String) (tok : String → Nat)
    (tsUtc dateIst timeIst : String) (store : List Row) (convo : String)
    (h : pyStrip convo ≠ "") :
    responseReported (evaluate m₁ tok tsUtc dateIst timeIst store convo).1
        = some (detect_sensitive_info convo) ∧
      responseReported (evaluate m₂ tok tsUtc dateIst timeIst store convo).1
        = responseReported (evaluate m₁ tok tsUtc dateIst timeIst store convo).1 ∧
      storedFlagCell (evaluate m₁ tok tsUtc dateIst timeIst store convo).2
        = some (boolCell (detect_sensitive_info convo)) ∧
      (isInfixL "Please share your OTP".data convo.data = true →
        responseReported (evaluate m₁ tok tsUtc dateIst timeIst store convo).1
          = some true) := by
  refine ⟨?_, ?_, ?_, ?_⟩
  · simp [evaluate, h, responseReported]
  · simp [evaluate, h, responseReported]
  · simp only [evaluate, if_neg h]
    rw [storedFlagCell, appendRecord, List.getLast?_concat]
    rfl
  · intro hin
    have hd : detect_sensitive_info convo = true := by
      have h1 : "Please share your OTP".data <:+: convo.data := (isInfixL_iff _ _).mp hin
      have h2 := h1.map Char.toLower
      have h3 : "otp".data <:+: ("Please share your OTP".data.map Char.toLower) :=
        (isInfixL_iff _ _).mp (by decide)
      have h4 : "otp".data <:+: (pyLower convo).data := h3.trans h2
      simp only [detect_sensitive_info, red_flags, List.any_eq_true]
      exact ⟨"otp", by simp, (containsSubstr_iff _ _).mpr h4⟩
    simp [evaluate, h, responseReported, hd]

/-- C5 witness: a concrete conversation containing
`"Please share your OTP"` is reported in the response and in the
persisted row, under two different model oracles. -/
theorem claim5_witness :
    pyStrip "Hi. Please share your OTP now." ≠ "" ∧
      responseReported
        (evaluate constModel constTok "u" "d" "t" [] "Hi. Please share your OTP now.").1
        = some true ∧
      responseReported
        (evaluate constModelB constTok "u" "d" "t" [] "Hi. Please share your OTP now.").1
        = some true ∧
      storedFlagCell
        (evaluate constModel constTok "u" "d" "t" [] "Hi. Please share your OTP now.").2
        = some "True" := by
  have H := claim5_theorem constModel constModelB constTok "u" "d" "t" []
    "Hi. Please share your OTP now." (by decide)
  refine ⟨by decide, H.2.2.2 (by decide), ?_, ?_⟩
  · rw [H.2.1]
    exact H.2.2.2 (by decide)
  · rw [H.2.2.1]
    decide

/-- C6, counterexample: the completion `dupFailText` contains a
Behavior bullet line lacking a `(Score: X/5)` annotation, yet the
parser's behavior text is `"good"` (from the earlier matching bullet),
not the empty string the claim requires. -/
theorem claim6_counterexample :
    splitlines dupFailText = ["- Behavior: good (Score: 4/5)", "- Behavior: bad"] ∧
      classifyLine "- Behavior: bad" = LineKind.bullet Cat.behavior none ∧
      (extract_info dupFailText).behavior = "good" ∧
      (extract_info dupFailText).behavior ≠ "" := by
  decide

/-- C6 (amended): a bullet line whose `(Score: X/5)` annotation fails
the regex contributes nothing — when every line of the completion fails
to produce a capture for a category, that category's text is the empty
string and its score is 1 (the whole bullet is discarded, never
partially salvaged). -/
theorem claim6_theorem (s : String) (c : Cat) (h : noCaptureLines c s = true) :
    rText (extract_info s) c = "" ∧ rScore (extract_info s) c = 1 := by
  have h' : ∀ l ∈ splitlines s, captureFor c l = none := fun l hl =>
    of_decide_eq_true (List.all_eq_true.mp h l hl)
  have hp := foldl_preserve (splitlines s) initState c h'
  rw [extract_info, rText_finalize, rScore_finalize, runLines]
  rw [hp.1, hp.2]
  cases c <;> exact ⟨rfl, rfl⟩

/-- C6 witness: a completion whose only Behavior bullet lacks the score
annotation leaves behavior text empty and score 1. -/
theorem claim6_witness :
    noCaptureLines Cat.behavior "- Behavior: no annotation here" = true ∧
      rText (extract_info "- Behavior: no annotation here") Cat.behavior = "" ∧
      rScore (extract_info "- Behavior: no annotation here") Cat.behavior = 1 := by
  have H := claim6_theorem "- Behavior: no annotation here" Cat.behavior (by decide)
  exact ⟨by decide, H.1, H.2⟩

/-- C7: a completion with no `summary:` prefix line and none of the
three category markers parses to an empty summary, empty texts and
score 1 for all three categories, rather than failing. -/
theorem claim7_theorem (s : String) (h : unstructuredText s = true) :
    extract_info s =
      { summary := "", behavior := "", conv := "", know := ""
        sb := 1, sc := 1, sk := 1 } := by
  have h' : ∀ l ∈ splitlines s, classifyLine l = LineKind.plain := fun l hl =>
    of_decide_eq_true (List.all_eq_true.mp h l hl)
  rw [extract_info, runLines, foldl_plain_init (splitlines s) h']
  rfl

/-- C7 witness: a two-line completion with no recognizable markers
parses to the all-default result. -/
theorem claim7_witness :
    unstructuredText "hello there\ngeneral text" = true ∧
      extract_info "hello there\ngeneral text" =
        { summary := "", behavior := "", conv := "", know := ""
          sb := 1, sc := 1, sk := 1 } :=
  ⟨by decide, claim7_theorem "hello there\ngeneral text" (by decide)⟩

/-- C8: when a completion contains several lines that successfully
capture the same category, the result holds the text and score of the
last capturing line — every capture overwrites the previous one, and
nothing after the last capturing line changes the fields again. -/
theorem claim8_theorem (s : String) (ls₁ : List String) (l : String)
    (ls₂ : List String) (c : Cat) (t : String) (d : Nat)
    (hsplit : splitlines s = ls₁ ++ l :: ls₂)
    (hcap : captureFor c l = some (t, d))
    (hrest : noCaptureList c ls₂ = true) :
    rText (extract_info s) c = t ∧ rScore (extract_info s) c = d := by
  have hrest' : ∀ l' ∈ ls₂, captureFor c l' = none := fun l' hl' =>
    of_decide_eq_true (List.all_eq_true.mp hrest l' hl')
  rw [extract_info, rText_finalize, rScore_finalize, runLines, hsplit,
    List.foldl_append, List.foldl_cons]
  have hp := foldl_preserve ls₂ (stepLine (List.foldl stepLine initState ls₁) l) c hrest'
  have hc := stepLine_capture (List.foldl stepLine initState ls₁) l c t d hcap
  exact ⟨hp.1.trans hc.1, hp.2.trans hc.2⟩

/-- C8 witness: with two well-formed Behavior bullets, the second one's
text and score win. -/
theorem claim8_witness :
    captureFor Cat.behavior "- Behavior: second (Score: 3/5)" = some ("second", 3) ∧
      rText (extract_info dupText) Cat.behavior = "second" ∧
      rScore (extract_info dupText) Cat.behavior = 3 := by
  have H := claim8_theorem dupText ["- Behavior: first (Score: 2/5)"]
    "- Behavior: second (Score: 3/5)" [] Cat.behavior "second" 3
    (by decide) (by decide) (by decide)
  exact ⟨by decide, H.1, H.2⟩

/-- C9: starting from the header-only store, appending N records and
reading them back yields exactly those N records (modulo the cell
encoding of scores and the boolean), each append adds exactly one row,
and every append leaves the prior rows unchanged. -/
theorem claim9_theorem (records : List EvalRecord) (h : scoresSmall records = true) :
    readAll (records.foldl appendRecord initStore) = records ∧
      (records.foldl appendRecord initStore).length = records.length + 1 ∧
      ∀ (store : List Row) (r : EvalRecord),
        (appendRecord store r).take store.length = store ∧
          (appendRecord store r).length = store.length + 1 := by
  refine ⟨?_, ?_, ?_⟩
  · rw [foldl_appendRecord, readAll, initStore]
    simp only [List.cons_append, List.nil_append, List.drop_succ_cons,
      List.drop_zero, List.map_map]
    have hall : ∀ r ∈ records, (decodeRow ∘ encodeRecord) r = id r := by
      intro r hr
      have hb := List.all_eq_true.mp h r hr
      simp only [Bool.and_eq_true, decide_eq_true_eq] at hb
      exact decodeRow_encodeRecord r hb.1.1 hb.1.2 hb.2
    rw [List.map_congr_left hall, List.map_id]
  · rw [foldl_appendRecord]
    simp [initStore, Nat.add_comm]
  · intro store r
    exact ⟨List.take_left store [encodeRecord r], by simp [appendRecord]⟩

/-- C9 witness: two concrete records round-trip through the sink. -/
theorem claim9_witness :
    scoresSmall [sampleRec1, sampleRec2] = true ∧
      readAll ([sampleRec1, sampleRec2].foldl appendRecord initStore) =
        [sampleRec1, sampleRec2] := by
  have H := claim9_theorem [sampleRec1, sampleRec2] (by decide)
  exact ⟨by decide, H.1⟩

/-- C10 (implicit): when a later line for the same category carries the
marker but fails the `(Score: X/5)` regex, the earlier successful
capture is retained — the failing bullet only moves the section cursor
to that category (so the line is not appended to the summary and the
state is otherwise unchanged). -/
theorem claim10_theorem (s : String) (ls₁ : List String) (lm lf : String)
    (ls₂ : List String) (c : Cat) (t : String) (d : Nat)
    (hsplit : splitlines s = ls₁ ++ lm :: lf :: ls₂)
    (hm : captureFor c lm = some (t, d))
    (hf : classifyLine lf = LineKind.bullet c none)
    (hrest : noCaptureList c ls₂ = true) :
    rText (extract_info s) c = t ∧ rScore (extract_info s) c = d ∧
      ∀ st : PState, stepLine st lf = { st with current := some (Cursor.cat c) } := by
  have hlf : captureFor c lf = none := by
    rw [captureFor, hf]
    simp
  have hrest' : ∀ l' ∈ ls₂, captureFor c l' = none := fun l' hl' =>
    of_decide_eq_true (List.all_eq_true.mp hrest l' hl')
  refine ⟨?_, ?_, ?_⟩
  · rw [extract_info, rText_finalize, runLines, hsplit, List.foldl_append,
      List.foldl_cons, List.foldl_cons]
    have hp := foldl_preserve ls₂
      (stepLine (stepLine (List.foldl stepLine initState ls₁) lm) lf) c hrest'
    have hpf := stepLine_preserve (stepLine (List.foldl stepLine initState ls₁) lm) lf c hlf
    have hc := stepLine_capture (List.foldl stepLine initState ls₁) lm c t d hm
    exact hp.1.trans (hpf.1.trans hc.1)
  · rw [extract_info, rScore_finalize, runLines, hsplit, List.foldl_append,
      List.foldl_cons, List.foldl_cons]
    have hp := foldl_preserve ls₂
      (stepLine (stepLine (List.foldl stepLine initState ls₁) lm) lf) c hrest'
    have hpf := stepLine_preserve (stepLine (List.foldl stepLine initState ls₁) lm) lf c hlf
    have hc := stepLine_capture (List.foldl stepLine initState ls₁) lm c t d hm
    exact hp.2.trans (hpf.2.trans hc.2)
  · intro st
    simp [stepLine, hf, applyBullet]

/-- C10 witness: in `dupFailText` the failing second bullet keeps the
first capture ("good", 4), and stepping any state over it only moves
the cursor. -/
theorem claim10_witness :
    rText (extract_info dupFailText) Cat.behavior = "good" ∧
      rScore (extract_info dupFailText) Cat.behavior = 4 ∧
      stepLine initState "- Behavior: bad" =
        { initState with current := some (Cursor.cat Cat.behavior) } := by
  have H := claim10_theorem dupFailText [] "- Behavior: good (Score: 4/5)"
    "- Behavior: bad" [] Cat.behavior "good" 4
    (by decide) (by decide) (by decide) (by decide)
  exact ⟨H.1, H.2.1, H.2.2 initState⟩

end SupportEval
